import Mathlib

/-!
Shallow embedding of `main.py` of the DeepSORT_YOLOv5_Pytorch pipeline,
together with a model of the DeepSORT tracker orchestrator (whose source is
not part of this tree; it is called through `build_tracker`/`deepsort.update`).

Pixel coordinates and confidence scores are embedded as rationals (`ℚ`).
-/

/-- One row of the detector output tensor `results.xyxy[0]`
(main.py:226-227): corner coordinates `x1 y1 x2 y2`, confidence, class id. -/
structure Det where
  x1 : ℚ
  y1 : ℚ
  x2 : ℚ
  y2 : ℚ
  conf : ℚ
  cls : ℚ
deriving DecidableEq, Repr

/-- Conversion of a corner-format box to center-format, as `xyxy2xywh`
(yolov5 utils, applied at main.py:247): center-x, center-y, width, height. -/
structure BoxXYWH where
  x : ℚ
  y : ℚ
  w : ℚ
  h : ℚ
deriving DecidableEq, Repr

def xyxy2xywh (d : Det) : BoxXYWH :=
  ⟨(d.x1 + d.x2) / 2, (d.y1 + d.y2) / 2, d.x2 - d.x1, d.y2 - d.y1⟩

/-- The filtering step `pred = res[res[:, -1] == 0]` (main.py:232): keep
exactly the detector rows whose class id equals 0.  `det = pred[0]`
(main.py:236) is this list. -/
def imageTrackPred (res : List Det) : List Det :=
  res.filter (fun d => d.cls == 0)

/-- The box list `bbox_xywh = xyxy2xywh(det[:, :4])` passed to
`deepsort.update` (main.py:247,251). -/
def bbox_xywh (pred : List Det) : List BoxXYWH :=
  pred.map xyxy2xywh

/-- The confidence column `confs = det[:, 4:5]` passed to `deepsort.update`
(main.py:248,251). -/
def confs (pred : List Det) : List ℚ :=
  pred.map Det.conf

/-- The detections `image_track` forwards to the tracker, as a function of
alternatives the configuration offers: `args.classes` (main.py:312) is in scope in
`image_track` but line 232 does not consult it — the row filter compares the
class column against the literal 0 only. -/
def forwardedDets (targetClass : ℚ) (res : List Det) : List Det :=
  imageTrackPred res

/-- A detection is malformed in the sense of the specification when its
width or height is non-positive or its confidence lies outside `[0,1]`. -/
def isMalformed (d : Det) : Prop :=
  d.x2 - d.x1 ≤ 0 ∨ d.y2 - d.y1 ≤ 0 ∨ d.conf < 0 ∨ 1 < d.conf

instance (d : Det) : Decidable (isMalformed d) := by
  unfold isMalformed; infer_instance

-- Sanity checks of the filter on concrete rows.
example : imageTrackPred [⟨0,0,1,1,1,0⟩, ⟨0,0,1,1,1,2⟩] = [⟨0,0,1,1,1,0⟩] := by
  rfl

example : isMalformed ⟨10,10,5,5,2,0⟩ := by
  norm_num [isMalformed]

/-!
Model of the DeepSORT tracker state.  The tracker implementation behind
`build_tracker` (main.py:12,86) is not part of this tree, so its state is
modelled from the spec; `image_track` treats it as a black box anyway.
-/

/-- Modelled from the spec: a track of the DeepSORT tracker (spec §3), whose
implementation is behind `build_tracker` and not in this tree.  `hits` is the
hit streak, `timeSinceUpdate` counts consecutive unmatched frames, and
`isConfirmed` records the tentative→confirmed promotion. -/
structure Track where
  id : Nat
  hits : Nat
  timeSinceUpdate : Nat
  isConfirmed : Bool
deriving DecidableEq, Repr

/-- Modelled from the spec: the orchestrator's track table plus the
monotonically increasing identity counter (spec §3). -/
structure TrackerState where
  tracks : List Track
  nextId : Nat
deriving DecidableEq, Repr

/-- Modelled from the spec: the empty track table at the start of a run;
track ids are positive (spec §6), so the counter starts at 1. -/
def initTracker : TrackerState := ⟨[], 1⟩

/-- Modelled from the spec: per-frame fate of one existing track
(spec §4.3 steps 3-4 and 6).  `matched` lists the ids the assignment engine
matched this frame; a matched track has its hit streak incremented and its
miss counter reset, and is promoted once the streak reaches `minHits`; an
unmatched track has its miss counter incremented and is purged (`none`)
when it was never confirmed or its miss counter exceeds `maxAge`. -/
def updateTrack (minHits maxAge : Nat) (matched : List Nat) (t : Track) :
    Option Track :=
  if t.id ∈ matched then
    some (if minHits ≤ t.hits + 1 then ⟨t.id, t.hits + 1, 0, true⟩
          else ⟨t.id, t.hits + 1, 0, t.isConfirmed⟩)
  else if t.isConfirmed = false ∨ maxAge < t.timeSinceUpdate + 1 then none
  else some ⟨t.id, t.hits, t.timeSinceUpdate + 1, t.isConfirmed⟩

/-- Modelled from the spec: the tracks spawned for the `numNew` unmatched
detections of a frame (spec §4.3 step 5), with consecutive fresh ids. -/
def newTracks (nextId numNew : Nat) : List Track :=
  (List.range numNew).map (fun k => ⟨nextId + k, 1, 0, false⟩)

/-- Modelled from the spec: one full frame cycle of the orchestrator
(spec §4.3): every live track is matched or aged and possibly purged, and one
tentative track is spawned per unmatched detection, consuming fresh ids. -/
def stepTracker (minHits maxAge : Nat) (s : TrackerState)
    (matched : List Nat) (numNew : Nat) : TrackerState :=
  ⟨s.tracks.filterMap (updateTrack minHits maxAge matched) ++ newTracks s.nextId numNew,
   s.nextId + numNew⟩

/-- A frame outcome as seen by the track table: the set of track ids the
assignment engine matched, and the number of unmatched detections. -/
structure FrameOutcome where
  matched : List Nat
  numNew : Nat
deriving DecidableEq, Repr

/-- Modelled from the spec: the track table after a sequence of frame
outcomes. -/
def runTracker (minHits maxAge : Nat) (s : TrackerState) :
    List FrameOutcome → TrackerState
  | [] => s
  | c :: cs => runTracker minHits maxAge (stepTracker minHits maxAge s c.matched c.numNew) cs

/-- Modelled from the spec: the ids handed out over a run, in creation
order. -/
def createdIds (minHits maxAge : Nat) (s : TrackerState) :
    List FrameOutcome → List Nat
  | [] => []
  | c :: cs =>
      (newTracks s.nextId c.numNew).map Track.id ++
        createdIds minHits maxAge (stepTracker minHits maxAge s c.matched c.numNew) cs

/-- An output row of `deepsort.update` (main.py:251-252):
`x1, y1, x2, y2, track_ID`. -/
structure OutRow where
  x1 : ℚ
  y1 : ℚ
  x2 : ℚ
  y2 : ℚ
  trackId : Nat
deriving DecidableEq, Repr

/-- The tracking part of `image_track` (main.py:236-254), with the opaque
`deepsort.update` call abstracted as the function argument `update`:
`det = pred[0]`; when `det` is nonempty, `bbox_xywh` and `confs` are passed
to `deepsort.update`; otherwise `outputs = torch.zeros((0, 5))` and the
tracker is not called at all. -/
def imageTrack (update : TrackerState → List Det → TrackerState × List OutRow)
    (ts : TrackerState) (res : List Det) : TrackerState × List OutRow :=
  let pred := imageTrackPred res
  if pred.isEmpty then (ts, [])
  else update ts pred

/-- The frame loop of `run` (main.py:157-184) reduced to the observable
tracker-update events: per grabbed frame (frames are given with their
detector outputs), `image_track` runs iff `idx_frame % frame_interval == 0`
(main.py:166), and inside it `deepsort.update` runs iff the class-filtered
detections are nonempty (main.py:237); the returned list contains the index
of every frame whose processing invoked `deepsort.update`. -/
def runUpdateLog (interval : Nat) : List (List Det) → Nat → List Nat
  | [], _ => []
  | f :: fs, idx =>
      if idx % interval = 0 then
        (if (imageTrackPred f).isEmpty then [] else [idx]) ++
          runUpdateLog interval fs (idx + 1)
      else
        runUpdateLog interval fs (idx + 1)

example : runUpdateLog 1 [[⟨0,0,1,1,1,0⟩], [], [⟨0,0,1,1,1,0⟩]] 0 = [0, 2] := by
  rfl

example : runUpdateLog 2 [[⟨0,0,1,1,1,0⟩], [⟨0,0,1,1,1,0⟩], [⟨0,0,1,1,1,0⟩]] 0 = [0, 2] := by
  rfl

/-!
Setup phase: `VideoTracker.__enter__` (main.py:103-136) and the top-level
`with VideoTracker(...) as vdo_trk: vdo_trk.run()` block (main.py:324-325).
The operating-system facts the asserts consult are passed in explicitly.
-/

/-- The command-line arguments `__enter__` and `run` consult: `--camera`
(main.py:305, `-1` means file input), `--input_path` (main.py:294) and
`--frame_interval` (main.py:296). -/
structure Args where
  cam : Int
  inputPath : String
  frameInterval : Nat
deriving DecidableEq, Repr

/-- The I/O facts the setup asserts consult: which paths `os.path.isfile`
accepts, which paths `cv2.VideoCapture.open` leaves `isOpened`, and whether
the camera read returns a frame. -/
structure IOEnv where
  files : List String
  openableVideos : List String
  cameraOk : Bool
deriving DecidableEq, Repr

/-- `VideoTracker.__enter__` (main.py:103-136): in camera mode a failed read
raises `Error: Camera error` (main.py:108); in file mode a missing file
raises `Path error` (main.py:114) and a file that cannot be opened fails the
`isOpened` assert (main.py:118).  Output creation (main.py:122-134) changes
no tracking state and is not modelled. -/
def videoTrackerEnter (env : IOEnv) (args : Args) : Except String Unit :=
  if args.cam ≠ -1 then
    if env.cameraOk then Except.ok () else Except.error "Error: Camera error"
  else
    if args.inputPath ∈ env.files then
      if args.inputPath ∈ env.openableVideos then Except.ok ()
      else Except.error "assert self.vdo.isOpened()"
    else Except.error "Path error"

/-- The top-level block (main.py:324-325): `__enter__` runs first; only when
it succeeds does `run` grab frames and drive tracking.  The success value is
the log of frame indices at which `deepsort.update` ran (`runUpdateLog`); a
setup failure propagates before any frame is grabbed. -/
def mainPipeline (env : IOEnv) (args : Args) (frames : List (List Det)) :
    Except String (List Nat) :=
  match videoTrackerEnter env args with
  | Except.error e => Except.error e
  | Except.ok _ => Except.ok (runUpdateLog args.frameInterval frames 0)

/-!
Post-processing: `augment_deepsort_bbox` (main.py:38-53) and
`transform_playerBoxes_to_list` (main.py:259-288).
-/

/-- `augment_deepsort_bbox` (main.py:38-53): recenter-and-scale a
`[x, y, width, height]` box by the given ratios, clamping the left/top edge
at 0 and the width/height so the box ends inside the frame.  The Python
defaults are `width_ratio=1.5`, `height_ratio=1.2`. -/
def augment_deepsort_bbox (bbox : BoxXYWH) (frameWidth frameHeight : ℚ)
    (widthRatio heightRatio : ℚ) : BoxXYWH :=
  let xCenter := bbox.x + bbox.w / 2
  let yCenter := bbox.y + bbox.h / 2
  let xAugmented := max 0 (xCenter - bbox.w * widthRatio / 2)
  let yAugmented := max 0 (yCenter - bbox.h * heightRatio / 2)
  let widthAugmented := min (bbox.w * widthRatio) (frameWidth - xAugmented)
  let heightAugmented := min (bbox.h * heightRatio) (frameHeight - yAugmented)
  ⟨xAugmented, yAugmented, widthAugmented, heightAugmented⟩

/-- A stored player box: `outputs[0:4]` of a tracker output row
(main.py:174), i.e. corner coordinates `x1 y1 x2 y2`. -/
structure StoredBox where
  x1 : ℚ
  y1 : ℚ
  x2 : ℚ
  y2 : ℚ
deriving DecidableEq, Repr

/-- The shape of one video frame: `img0.shape[0]` is the height and
`img0.shape[1]` the width (main.py:163-164,284). -/
structure FrameShape where
  height : ℚ
  width : ℚ
deriving DecidableEq, Repr

/-- Lookup in a per-player frame dictionary (`bbox_dict` of main.py:272),
modelled as an association list from frame index to stored box. -/
def lookupFrame (i : Nat) : List (Nat × StoredBox) → Option StoredBox
  | [] => none
  | (j, b) :: rest => if j = i then some b else lookupFrame i rest

/-- The row `transform_playerBoxes_to_list` computes for one player at one
frame (main.py:273-285): `[0, 0, 0, 0]` when the player has no recorded box
at this frame index, otherwise the stored corner box is turned into
`[x1, y1, 1.5*(x2-x1), 1.1*(y2-y1)]` and then augmented with the default
ratios against the frame shape. -/
def playerRow (frame : FrameShape) (i : Nat) (framesOfPlayer : List (Nat × StoredBox)) :
    BoxXYWH :=
  match lookupFrame i framesOfPlayer with
  | none => ⟨0, 0, 0, 0⟩
  | some b =>
      augment_deepsort_bbox
        ⟨b.x1, b.y1, (3 / 2) * (b.x2 - b.x1), (11 / 10) * (b.y2 - b.y1)⟩
        frame.width frame.height (3 / 2) (6 / 5)

/-- The inner loop body of `transform_playerBoxes_to_list` (main.py:270-286):
the bounding boxes for all players at frame `i`, one row per player id in the
key order of the `playerBoxes` dictionary (modelled as an association list
from player id to its per-frame box dictionary). -/
def frameRows (playerBoxes : List (Nat × List (Nat × StoredBox)))
    (frame : FrameShape) (i : Nat) : List BoxXYWH :=
  playerBoxes.map (fun pb => playerRow frame i pb.2)

/-- The outer loop of `transform_playerBoxes_to_list` (main.py:269-287),
with the running frame index made explicit. -/
def transformAux (playerBoxes : List (Nat × List (Nat × StoredBox))) :
    List FrameShape → Nat → List (List BoxXYWH)
  | [], _ => []
  | f :: fs, i => frameRows playerBoxes f i :: transformAux playerBoxes fs (i + 1)

/-- `transform_playerBoxes_to_list` (main.py:259-288): one list of player
rows per video frame. -/
def transform_playerBoxes_to_list (videoFrames : List FrameShape)
    (playerBoxes : List (Nat × List (Nat × StoredBox))) : List (List BoxXYWH) :=
  transformAux playerBoxes videoFrames 0

example :
    transform_playerBoxes_to_list [⟨100, 100⟩, ⟨100, 100⟩] [(7, [(1, ⟨10, 10, 20, 20⟩)])] =
      [[⟨0, 0, 0, 0⟩],
       [⟨25 / 4, 89 / 10, 45 / 2, 66 / 5⟩]] := by
  norm_num [transform_playerBoxes_to_list, transformAux, frameRows, playerRow,
    augment_deepsort_bbox, lookupFrame, max_def, min_def]

/-!
Claim theorems.
-/

/-- C1: for every processed frame, the class filter forwards to the tracker
exactly the detector output rows whose class id equals 0 (person): the
forwarded list is a sublist of the detector output, and a detection is
forwarded iff it occurs in the detector output with class id 0. -/
theorem class_filter_exact (res : List Det) :
    List.Sublist (imageTrackPred res) res ∧
    ∀ d : Det, d ∈ imageTrackPred res ↔ d ∈ res ∧ d.cls = 0 := by
  refine ⟨List.filter_sublist res, fun d => ?_⟩
  simp [imageTrackPred, List.mem_filter]

/-- C4 counterexample: with target class configured as 2, the claim "the
detections forwarded to the tracker are exactly those with class id equal to
the configured class" fails on a one-row detector output of class 2: the row
is not forwarded. -/
theorem target_class_config_cex :
    ¬ ((⟨0, 0, 1, 1, 1, 2⟩ : Det) ∈ forwardedDets 2 [⟨0, 0, 1, 1, 1, 2⟩] ↔
        (⟨0, 0, 1, 1, 1, 2⟩ : Det) ∈ [(⟨0, 0, 1, 1, 1, 2⟩ : Det)] ∧
          (⟨0, 0, 1, 1, 1, 2⟩ : Det).cls = 2) := by
  intro hiff
  have hmem := hiff.mpr ⟨List.mem_singleton_self _, rfl⟩
  have hempty : forwardedDets 2 [(⟨0, 0, 1, 1, 1, 2⟩ : Det)] = [] := rfl
  rw [hempty] at hmem
  exact List.not_mem_nil _ hmem

/-- C4 amended: the class filter is hard-coded to class id 0 — the forwarded
detections do not depend on the configured target class at all, and a
detection is forwarded iff its class id is 0. -/
theorem target_class_hardcoded (c c' : ℚ) (res : List Det) :
    forwardedDets c res = forwardedDets c' res ∧
    ∀ d : Det, d ∈ forwardedDets c res ↔ d ∈ res ∧ d.cls = 0 := by
  refine ⟨rfl, fun d => ?_⟩
  simp [forwardedDets, imageTrackPred, List.mem_filter]

/-- C5 counterexample: the detection row `(10, 10, 5, 5, 2, 0)` is malformed
(width `5 - 10 < 0` and confidence `2 ∉ [0,1]`), yet its box and confidence
are included in the `bbox_xywh`/`confs` arrays handed to `deepsort.update`;
nothing rejects or logs it. -/
theorem malformed_det_forwarded_cex :
    isMalformed ⟨10, 10, 5, 5, 2, 0⟩ ∧
    xyxy2xywh ⟨10, 10, 5, 5, 2, 0⟩ ∈ bbox_xywh (imageTrackPred [⟨10, 10, 5, 5, 2, 0⟩]) ∧
    (2 : ℚ) ∈ confs (imageTrackPred [⟨10, 10, 5, 5, 2, 0⟩]) := by
  refine ⟨?_, ?_, ?_⟩
  · norm_num [isMalformed]
  · norm_num [bbox_xywh, imageTrackPred, List.filter]
  · norm_num [confs, imageTrackPred, List.filter, Det.conf]

/-- C5 amended: the filter boundary performs no validity check: every
class-0 detection of the detector output, malformed or not, has its box and
confidence included in the arrays passed to `deepsort.update`. -/
theorem malformed_det_forwarded (res : List Det) (d : Det)
    (hmem : d ∈ res) (hcls : d.cls = 0) (hmal : isMalformed d) :
    d ∈ imageTrackPred res ∧
    xyxy2xywh d ∈ bbox_xywh (imageTrackPred res) ∧
    d.conf ∈ confs (imageTrackPred res) := by
  have hd : d ∈ imageTrackPred res := by
    simp [imageTrackPred, List.mem_filter, hmem, hcls]
  exact ⟨hd, List.mem_map_of_mem xyxy2xywh hd, List.mem_map_of_mem Det.conf hd⟩

/-- Witness for the amended C5 theorem at the malformed row
`(10, 10, 5, 5, 2, 0)` inside a two-row detector output. -/
theorem malformed_det_forwarded_witness :
    (⟨10, 10, 5, 5, 2, 0⟩ : Det) ∈ [(⟨0, 0, 1, 1, 1, 0⟩ : Det), ⟨10, 10, 5, 5, 2, 0⟩] ∧
    Det.cls ⟨10, 10, 5, 5, 2, 0⟩ = 0 ∧ isMalformed ⟨10, 10, 5, 5, 2, 0⟩ ∧
    ((⟨10, 10, 5, 5, 2, 0⟩ : Det) ∈
        imageTrackPred [⟨0, 0, 1, 1, 1, 0⟩, ⟨10, 10, 5, 5, 2, 0⟩] ∧
      xyxy2xywh ⟨10, 10, 5, 5, 2, 0⟩ ∈
        bbox_xywh (imageTrackPred [⟨0, 0, 1, 1, 1, 0⟩, ⟨10, 10, 5, 5, 2, 0⟩]) ∧
      Det.conf ⟨10, 10, 5, 5, 2, 0⟩ ∈
        confs (imageTrackPred [⟨0, 0, 1, 1, 1, 0⟩, ⟨10, 10, 5, 5, 2, 0⟩])) :=
  ⟨by norm_num, rfl, by norm_num [isMalformed],
    malformed_det_forwarded _ _ (by norm_num) rfl (by norm_num [isMalformed])⟩

/-- C2 counterexample: a run over a single grabbed frame with no detections,
at the default `frame_interval = 1`, invokes `deepsort.update` zero times,
not once per grabbed frame: the guard `if det is not None and len(det)`
(main.py:237) skips the tracker entirely on an empty frame. -/
theorem update_once_per_frame_cex :
    (runUpdateLog 1 [[]] 0).length = 0 ∧
    (runUpdateLog 1 [[]] 0).length ≠ ([[]] : List (List Det)).length := by
  refine ⟨rfl, ?_⟩
  intro hcontra
  simp [runUpdateLog, imageTrackPred] at hcontra

/-- C2 amended: `deepsort.update` is invoked exactly on the grabbed frames
whose index is a multiple of `frame_interval` and whose class-0 detection
list is nonempty; interval-skipped frames and frames with no class-0
detections trigger no tracker update. -/
theorem update_iff_interval_and_nonempty (interval : Nat) (frames : List (List Det))
    (idx : Nat) (hpos : 0 < interval) :
    runUpdateLog interval frames idx =
      ((List.enumFrom idx frames).filter
          (fun p => decide (p.1 % interval = 0) && !(imageTrackPred p.2).isEmpty)).map
        Prod.fst := by
  induction frames generalizing idx with
  | nil => rfl
  | cons f fs ih =>
    show (if idx % interval = 0 then
            (if (imageTrackPred f).isEmpty then [] else [idx]) ++
              runUpdateLog interval fs (idx + 1)
          else runUpdateLog interval fs (idx + 1)) = _
    rw [List.enumFrom_cons, List.filter_cons]
    by_cases hmod : idx % interval = 0
    · by_cases hemp : (imageTrackPred f).isEmpty
      · simp [hmod, hemp, ih]
      · simp [hmod, hemp, ih]
    · simp [hmod, ih]

/-- Witness for the amended C2 theorem: three frames at interval 2; the
frames at indices 0 and 2 have a class-0 detection, the frame at index 1 is
skipped by the interval, so updates run exactly at indices 0 and 2. -/
theorem update_iff_interval_and_nonempty_witness :
    0 < 2 ∧
    runUpdateLog 2 [[⟨0, 0, 1, 1, 1, 0⟩], [⟨0, 0, 1, 1, 1, 0⟩], [⟨0, 0, 1, 1, 1, 0⟩]] 0 =
      ((List.enumFrom 0 [[⟨0, 0, 1, 1, 1, 0⟩], [⟨0, 0, 1, 1, 1, 0⟩], [⟨0, 0, 1, 1, 1, 0⟩]]).filter
          (fun p => decide (p.1 % 2 = 0) && !(imageTrackPred p.2).isEmpty)).map
        Prod.fst :=
  ⟨by decide, update_iff_interval_and_nonempty 2 _ 0 (by decide)⟩

/-- C6 counterexample: on a frame with zero class-0 detections, a live track
of the tracker is not treated as unmatched — `image_track` skips the tracker
call entirely, so the track's miss counter stays 0, while treating every
live track as unmatched (one orchestrator cycle with no matches, spec §4.3)
would raise it to 1. -/
theorem zero_det_tracks_untouched_cex :
    ¬ ((imageTrack (fun s _ => (s, [])) ⟨[⟨1, 5, 0, true⟩], 2⟩ []).1 =
        stepTracker 3 30 ⟨[⟨1, 5, 0, true⟩], 2⟩ [] 0) := by
  decide

/-- C6 amended: on a frame whose class-0 detection list is empty,
`image_track` returns the empty (0-by-5) output and leaves the tracker state
exactly as it was: `deepsort.update` is not invoked, so live tracks are
neither matched nor aged. -/
theorem zero_det_empty_output (update : TrackerState → List Det → TrackerState × List OutRow)
    (ts : TrackerState) (res : List Det) (hempty : imageTrackPred res = []) :
    imageTrack update ts res = (ts, []) := by
  simp [imageTrack, hempty]

/-- Witness for the amended C6 theorem: a frame whose only detection has
class id 2 has no class-0 detection, and `image_track` returns the tracker
state unchanged with empty output. -/
theorem zero_det_empty_output_witness :
    imageTrackPred [⟨0, 0, 1, 1, 1, 2⟩] = [] ∧
    imageTrack (fun s _ => (s, [])) ⟨[⟨1, 5, 0, true⟩], 2⟩ [⟨0, 0, 1, 1, 1, 2⟩] =
      (⟨[⟨1, 5, 0, true⟩], 2⟩, []) :=
  ⟨rfl, zero_det_empty_output _ _ _ rfl⟩

/-- C7: in file-input mode (`cam = -1`), when the input path is not an
existing file or the opened capture fails the `isOpened` check,
`VideoTracker.__enter__` raises and the whole pipeline aborts with that
diagnostic before any frame is grabbed and before any tracker update runs. -/
theorem missing_input_aborts_setup (env : IOEnv) (args : Args)
    (frames : List (List Det)) (hcam : args.cam = -1)
    (hbad : args.inputPath ∉ env.files ∨ args.inputPath ∉ env.openableVideos) :
    ∃ msg, videoTrackerEnter env args = Except.error msg ∧
      mainPipeline env args frames = Except.error msg := by
  have henter : ∃ msg, videoTrackerEnter env args = Except.error msg := by
    unfold videoTrackerEnter
    rw [hcam]
    simp only [ne_eq, neg_neg, not_true_eq_false, if_false, reduceIte]
    by_cases hfile : args.inputPath ∈ env.files
    · rcases hbad with hb | hb
      · exact absurd hfile hb
      · exact ⟨"assert self.vdo.isOpened()", by simp [hfile, hb]⟩
    · exact ⟨"Path error", by simp [hfile]⟩
  obtain ⟨msg, hmsg⟩ := henter
  exact ⟨msg, hmsg, by unfold mainPipeline; rw [hmsg]⟩

/-- Witness for the C7 theorem: an empty file system, file-input arguments
for `missing.mp4`, and one pending frame: setup aborts with `Path error`. -/
theorem missing_input_aborts_setup_witness :
    (⟨-1, "missing.mp4", 1⟩ : Args).cam = -1 ∧
    ("missing.mp4" ∉ (⟨[], [], true⟩ : IOEnv).files ∨
      "missing.mp4" ∉ (⟨[], [], true⟩ : IOEnv).openableVideos) ∧
    ∃ msg, videoTrackerEnter ⟨[], [], true⟩ ⟨-1, "missing.mp4", 1⟩ = Except.error msg ∧
      mainPipeline ⟨[], [], true⟩ ⟨-1, "missing.mp4", 1⟩ [[]] = Except.error msg :=
  ⟨rfl, Or.inl (List.not_mem_nil _),
    missing_input_aborts_setup _ _ _ rfl (Or.inl (List.not_mem_nil _))⟩

/-!
Identity invariants of the modelled tracker.
-/

/-- A surviving existing track keeps its identity through a frame cycle. -/
theorem updateTrack_id_eq (minHits maxAge : Nat) (m : List Nat) (t t' : Track)
    (h : updateTrack minHits maxAge m t = some t') : t'.id = t.id := by
  unfold updateTrack at h
  split_ifs at h <;> (injection h with h) <;> subst h <;> rfl

/-- The ids of the tracks spawned in one frame are the consecutive naturals
starting at the identity counter. -/
theorem newTracks_map_id (nextId numNew : Nat) :
    (newTracks nextId numNew).map Track.id = (List.range numNew).map (nextId + ·) := by
  simp [newTracks, List.map_map, Function.comp]

/-- Bounds on the id of a spawned track. -/
theorem mem_newTracks_id_bounds (nextId numNew : Nat) (t : Track)
    (h : t ∈ newTracks nextId numNew) : nextId ≤ t.id ∧ t.id < nextId + numNew := by
  unfold newTracks at h
  obtain ⟨k, hk, rfl⟩ := List.mem_map.mp h
  have := List.mem_range.mp hk
  constructor <;> simp <;> omega

/-- The id invariant of the track table: ids strictly increase along the
table and stay below the identity counter. -/
def trackerInv (s : TrackerState) : Prop :=
  s.tracks.Pairwise (fun a b => a.id < b.id) ∧ ∀ t ∈ s.tracks, t.id < s.nextId

/-- One frame cycle preserves the id invariant. -/
theorem stepTracker_inv (minHits maxAge : Nat) (s : TrackerState)
    (m : List Nat) (n : Nat) (hs : trackerInv s) :
    trackerInv (stepTracker minHits maxAge s m n) := by
  obtain ⟨hpw, hlt⟩ := hs
  constructor
  · rw [stepTracker, List.pairwise_append]
    refine ⟨?_, ?_, ?_⟩
    · rw [List.pairwise_filterMap]
      refine hpw.imp_of_mem ?_
      intro a b hma hmb hab a' ha' b' hb'
      rw [updateTrack_id_eq minHits maxAge m a a' ha',
        updateTrack_id_eq minHits maxAge m b b' hb']
      exact hab
    · rw [newTracks, List.pairwise_map]
      exact (List.pairwise_lt_range n).imp (by intro a b h; simpa using h)
    · intro a ha b hb
      obtain ⟨a0, ha0, ha0'⟩ := List.mem_filterMap.mp ha
      have h1 : a.id = a0.id := updateTrack_id_eq minHits maxAge m a0 a ha0'
      have h2 := hlt a0 ha0
      have h3 := (mem_newTracks_id_bounds s.nextId n b hb).1
      omega
  · intro t ht
    rcases List.mem_append.mp ht with h | h
    · obtain ⟨t0, ht0, ht0'⟩ := List.mem_filterMap.mp h
      have h1 : t.id = t0.id := updateTrack_id_eq minHits maxAge m t0 t ht0'
      have h2 := hlt t0 ht0
      show t.id < s.nextId + n
      omega
    · have := (mem_newTracks_id_bounds s.nextId n t h).2
      exact this

/-- A full run from an invariant-respecting state preserves the id
invariant. -/
theorem runTracker_inv (minHits maxAge : Nat) (cmds : List FrameOutcome)
    (s : TrackerState) (hs : trackerInv s) :
    trackerInv (runTracker minHits maxAge s cmds) := by
  induction cmds generalizing s with
  | nil => exact hs
  | cons c cs ih =>
      exact ih _ (stepTracker_inv minHits maxAge s c.matched c.numNew hs)

/-- The ids created during a run are at least the starting counter and are
strictly increasing in creation order. -/
theorem createdIds_bound_pairwise (minHits maxAge : Nat) (cmds : List FrameOutcome)
    (s : TrackerState) :
    (∀ x ∈ createdIds minHits maxAge s cmds, s.nextId ≤ x) ∧
    (createdIds minHits maxAge s cmds).Pairwise (· < ·) := by
  induction cmds generalizing s with
  | nil => simp [createdIds]
  | cons c cs ih =>
      have hnext : (stepTracker minHits maxAge s c.matched c.numNew).nextId =
          s.nextId + c.numNew := rfl
      obtain ⟨ihb, ihp⟩ := ih (stepTracker minHits maxAge s c.matched c.numNew)
      rw [hnext] at ihb
      constructor
      · intro x hx
        rw [createdIds] at hx
        rcases List.mem_append.mp hx with h | h
        · obtain ⟨t, ht, rfl⟩ := List.mem_map.mp h
          exact (mem_newTracks_id_bounds s.nextId c.numNew t ht).1
        · have := ihb x h
          omega
      · rw [createdIds, List.pairwise_append]
        refine ⟨?_, ihp, ?_⟩
        · rw [newTracks_map_id, List.pairwise_map]
          exact (List.pairwise_lt_range c.numNew).imp (by intro a b h; simpa using h)
        · intro a ha b hb
          obtain ⟨t, ht, rfl⟩ := List.mem_map.mp ha
          have h1 := (mem_newTracks_id_bounds s.nextId c.numNew t ht).2
          have h2 := ihb b hb
          omega

/-- C3: over any sequence of frame outcomes from a fresh tracker, the ids
handed to new tracks are strictly increasing in creation order — hence
globally unique for the run and never reused after a track is deleted — and
the live track table always lists strictly increasing ids. -/
theorem track_ids_unique_increasing (minHits maxAge : Nat) (cmds : List FrameOutcome) :
    (createdIds minHits maxAge initTracker cmds).Pairwise (· < ·) ∧
    ((runTracker minHits maxAge initTracker cmds).tracks.map Track.id).Pairwise (· < ·) := by
  constructor
  · exact (createdIds_bound_pairwise minHits maxAge cmds initTracker).2
  · have hinv : trackerInv initTracker := by
      constructor
      · exact List.Pairwise.nil
      · intro t ht; exact absurd ht (List.not_mem_nil t)
    have := (runTracker_inv minHits maxAge cmds initTracker hinv).1
    rw [List.pairwise_map]
    exact this

/-!
Post-processing lemmas.
-/

/-- The transform produces one entry per remaining frame. -/
theorem transformAux_length (pb : List (Nat × List (Nat × StoredBox)))
    (fs : List FrameShape) (i0 : Nat) :
    (transformAux pb fs i0).length = fs.length := by
  induction fs generalizing i0 with
  | nil => rfl
  | cons f fs ih => simp [transformAux, ih]

/-- Indexing the transform result: entry `i` is the row list of frame `i`,
built at the shifted frame index. -/
theorem transformAux_getElem (pb : List (Nat × List (Nat × StoredBox)))
    (fs : List FrameShape) (i0 i : Nat) :
    (transformAux pb fs i0)[i]? = (fs[i]?).map (fun f => frameRows pb f (i0 + i)) := by
  induction fs generalizing i0 i with
  | nil => simp [transformAux]
  | cons f fs ih =>
      cases i with
      | zero => simp [transformAux]
      | succ n =>
          simp only [transformAux, List.getElem?_cons_succ, ih]
          have harith : i0 + (n + 1) = (i0 + 1) + n := by omega
          rw [harith]

/-- Every entry of the transform result is a `frameRows` list. -/
theorem mem_transformAux (pb : List (Nat × List (Nat × StoredBox)))
    (fs : List FrameShape) (i0 : Nat) (rows : List BoxXYWH)
    (h : rows ∈ transformAux pb fs i0) :
    ∃ f k, rows = frameRows pb f k := by
  induction fs generalizing i0 with
  | nil => exact absurd h (List.not_mem_nil rows)
  | cons f fs ih =>
      rcases List.mem_cons.mp h with h | h
      · exact ⟨f, i0, h⟩
      · exact ih (i0 + 1) h

/-- C8: `transform_playerBoxes_to_list` returns one entry per input video
frame; each entry has one row per player, in the key order of the
`playerBoxes` dictionary; and at every frame index at which a player has no
recorded box, that player's row is `[0, 0, 0, 0]`. -/
theorem transform_one_entry_per_frame (videoFrames : List FrameShape)
    (playerBoxes : List (Nat × List (Nat × StoredBox))) :
    (transform_playerBoxes_to_list videoFrames playerBoxes).length = videoFrames.length ∧
    (∀ rows ∈ transform_playerBoxes_to_list videoFrames playerBoxes,
        rows.length = playerBoxes.length) ∧
    ∀ (i j pid : Nat) (fdict : List (Nat × StoredBox)), i < videoFrames.length →
      playerBoxes[j]? = some (pid, fdict) →
      lookupFrame i fdict = none →
      ∃ rows, (transform_playerBoxes_to_list videoFrames playerBoxes)[i]? = some rows ∧
        rows[j]? = some ⟨0, 0, 0, 0⟩ := by
  refine ⟨transformAux_length playerBoxes videoFrames 0, ?_, ?_⟩
  · intro rows hrows
    obtain ⟨f, k, rfl⟩ := mem_transformAux playerBoxes videoFrames 0 rows hrows
    simp [frameRows]
  · intro i j pid fdict hi hj hnone
    have hidx := transformAux_getElem playerBoxes videoFrames 0 i
    rw [List.getElem?_eq_getElem hi] at hidx
    refine ⟨frameRows playerBoxes videoFrames[i] (0 + i), hidx, ?_⟩
    unfold frameRows
    rw [List.getElem?_map, hj]
    have hzero : playerRow videoFrames[i] (0 + i) (pid, fdict).2 = ⟨0, 0, 0, 0⟩ := by
      have : (0 : Nat) + i = i := by omega
      rw [this]
      simp [playerRow, hnone]
    simpa using hzero

/-- Witness for the C8 theorem: two frames, one player first seen at frame
index 1; the player's row at frame 0 is `[0, 0, 0, 0]`. -/
theorem transform_one_entry_per_frame_witness :
    (0 : Nat) < 2 ∧
    ([((7 : Nat), [((1 : Nat), (⟨10, 10, 20, 20⟩ : StoredBox))])])[0]? =
      some (7, [(1, ⟨10, 10, 20, 20⟩)]) ∧
    lookupFrame 0 [(1, ⟨10, 10, 20, 20⟩)] = none ∧
    ∃ rows,
      (transform_playerBoxes_to_list [⟨100, 100⟩, ⟨100, 100⟩]
          [(7, [(1, ⟨10, 10, 20, 20⟩)])])[0]? = some rows ∧
      rows[0]? = some ⟨0, 0, 0, 0⟩ :=
  ⟨by omega, rfl, rfl,
    (transform_one_entry_per_frame [⟨100, 100⟩, ⟨100, 100⟩]
        [(7, [(1, ⟨10, 10, 20, 20⟩)])]).2.2 0 0 7 [(1, ⟨10, 10, 20, 20⟩)]
      (by simp) rfl rfl⟩

/-- C9: for a non-negative input box whose center lies inside the frame, the
augmented box has non-negative corner and stays inside the frame. -/
theorem augment_bbox_stays_in_frame (x y w h W H : ℚ)
    (hx : 0 ≤ x) (hy : 0 ≤ y) (hw : 0 ≤ w) (hh : 0 ≤ h)
    (hcx : x + w / 2 ≤ W) (hcy : y + h / 2 ≤ H) :
    0 ≤ (augment_deepsort_bbox ⟨x, y, w, h⟩ W H (3 / 2) (6 / 5)).x ∧
    0 ≤ (augment_deepsort_bbox ⟨x, y, w, h⟩ W H (3 / 2) (6 / 5)).y ∧
    (augment_deepsort_bbox ⟨x, y, w, h⟩ W H (3 / 2) (6 / 5)).x +
      (augment_deepsort_bbox ⟨x, y, w, h⟩ W H (3 / 2) (6 / 5)).w ≤ W ∧
    (augment_deepsort_bbox ⟨x, y, w, h⟩ W H (3 / 2) (6 / 5)).y +
      (augment_deepsort_bbox ⟨x, y, w, h⟩ W H (3 / 2) (6 / 5)).h ≤ H := by
  simp only [augment_deepsort_bbox]
  refine ⟨le_max_left _ _, le_max_left _ _, ?_, ?_⟩
  · have h1 := min_le_right (w * (3 / 2)) (W - max 0 (x + w / 2 - w * (3 / 2) / 2))
    linarith
  · have h1 := min_le_right (h * (6 / 5)) (H - max 0 (y + h / 2 - h * (6 / 5) / 2))
    linarith

/-- Witness for the C9 theorem at the box `[0, 0, 10, 10]` in a 100x100
frame. -/
theorem augment_bbox_stays_in_frame_witness :
    (0 : ℚ) ≤ 0 ∧ (0 : ℚ) ≤ 10 ∧ (0 : ℚ) + 10 / 2 ≤ 100 ∧
    (0 ≤ (augment_deepsort_bbox ⟨0, 0, 10, 10⟩ 100 100 (3 / 2) (6 / 5)).x ∧
      0 ≤ (augment_deepsort_bbox ⟨0, 0, 10, 10⟩ 100 100 (3 / 2) (6 / 5)).y ∧
      (augment_deepsort_bbox ⟨0, 0, 10, 10⟩ 100 100 (3 / 2) (6 / 5)).x +
        (augment_deepsort_bbox ⟨0, 0, 10, 10⟩ 100 100 (3 / 2) (6 / 5)).w ≤ 100 ∧
      (augment_deepsort_bbox ⟨0, 0, 10, 10⟩ 100 100 (3 / 2) (6 / 5)).y +
        (augment_deepsort_bbox ⟨0, 0, 10, 10⟩ 100 100 (3 / 2) (6 / 5)).h ≤ 100) :=
  ⟨le_refl 0, by norm_num, by norm_num,
    augment_bbox_stays_in_frame 0 0 10 10 100 100 (by norm_num) (by norm_num)
      (by norm_num) (by norm_num) (by norm_num) (by norm_num)⟩

/-- C10: when the scaled box needs no clamping (its left/top edges are
non-negative and its right/bottom edges are within the frame), the augmented
box keeps the input center exactly and scales the width and height by the
given ratios. -/
theorem augment_bbox_center_scale (x y w h W H wr hr : ℚ)
    (hleft : 0 ≤ x + w / 2 - w * wr / 2)
    (htop : 0 ≤ y + h / 2 - h * hr / 2)
    (hright : x + w / 2 + w * wr / 2 ≤ W)
    (hbottom : y + h / 2 + h * hr / 2 ≤ H) :
    (augment_deepsort_bbox ⟨x, y, w, h⟩ W H wr hr).x +
        (augment_deepsort_bbox ⟨x, y, w, h⟩ W H wr hr).w / 2 = x + w / 2 ∧
    (augment_deepsort_bbox ⟨x, y, w, h⟩ W H wr hr).y +
        (augment_deepsort_bbox ⟨x, y, w, h⟩ W H wr hr).h / 2 = y + h / 2 ∧
    (augment_deepsort_bbox ⟨x, y, w, h⟩ W H wr hr).w = w * wr ∧
    (augment_deepsort_bbox ⟨x, y, w, h⟩ W H wr hr).h = h * hr := by
  simp only [augment_deepsort_bbox]
  have hxa : max 0 (x + w / 2 - w * wr / 2) = x + w / 2 - w * wr / 2 :=
    max_eq_right hleft
  have hya : max 0 (y + h / 2 - h * hr / 2) = y + h / 2 - h * hr / 2 :=
    max_eq_right htop
  rw [hxa, hya]
  have hwa : min (w * wr) (W - (x + w / 2 - w * wr / 2)) = w * wr :=
    min_eq_left (by linarith)
  have hha : min (h * hr) (H - (y + h / 2 - h * hr / 2)) = h * hr :=
    min_eq_left (by linarith)
  rw [hwa, hha]
  exact ⟨by ring, by ring, rfl, rfl⟩

/-- Witness for the C10 theorem at the box `[40, 40, 20, 20]` in a 200x200
frame with the default ratios 1.5 and 1.2. -/
theorem augment_bbox_center_scale_witness :
    (0 : ℚ) ≤ 40 + 20 / 2 - 20 * (3 / 2) / 2 ∧
    (40 : ℚ) + 20 / 2 + 20 * (3 / 2) / 2 ≤ 200 ∧
    ((augment_deepsort_bbox ⟨40, 40, 20, 20⟩ 200 200 (3 / 2) (6 / 5)).x +
        (augment_deepsort_bbox ⟨40, 40, 20, 20⟩ 200 200 (3 / 2) (6 / 5)).w / 2 =
          40 + 20 / 2 ∧
      (augment_deepsort_bbox ⟨40, 40, 20, 20⟩ 200 200 (3 / 2) (6 / 5)).y +
        (augment_deepsort_bbox ⟨40, 40, 20, 20⟩ 200 200 (3 / 2) (6 / 5)).h / 2 =
          40 + 20 / 2 ∧
      (augment_deepsort_bbox ⟨40, 40, 20, 20⟩ 200 200 (3 / 2) (6 / 5)).w = 20 * (3 / 2) ∧
      (augment_deepsort_bbox ⟨40, 40, 20, 20⟩ 200 200 (3 / 2) (6 / 5)).h = 20 * (6 / 5)) :=
  ⟨by norm_num, by norm_num,
    augment_bbox_center_scale 40 40 20 20 200 200 (3 / 2) (6 / 5) (by norm_num)
      (by norm_num) (by norm_num) (by norm_num)⟩
